import Mathlib

/-!
Shallow embedding of the cache engine in `cache_engine.py` of the
comfyui-cache-dit repository, together with theorems checking the
natural-language specification against it.

Modelling choices:
* Tensors are value-level records of shape, dtype code and flattened data
  (rationals stand in for floats; the claims checked here are about
  structure, elementwise identities and bookkeeping, not float rounding).
* The original `forward` entry point is an opaque function from arguments
  to a returned value, supplied per call by the environment; wall-clock
  durations are likewise environment inputs.
* `torch.randn_like` is modelled by a sampler stream: the cache state
  carries a counter into an ambient family of samples, and each draw
  consumes a fresh index, which is how independent per-skip sampling is
  expressed.
* `clone().detach()` is a value-level copy (aliasing is not representable
  in a value semantics).
-/

namespace CacheDit

/-- Tensor as a value: shape, dtype code, flattened data. -/
structure Tensor where
  shape : List Nat
  dtype : Nat
  data : List Rat
deriving DecidableEq

/-- Value-level model of `Tensor.clone`: an independent copy with the same value. -/
def Tensor.clone (t : Tensor) : Tensor := t

/-- Value-level model of `Tensor.detach`: same value, autograd graph not modelled. -/
def Tensor.detach (t : Tensor) : Tensor := t

/-- Elementwise addition of same-shaped tensors (`last_result + noise`). -/
def tensorAdd (a b : Tensor) : Tensor :=
  { shape := a.shape, dtype := a.dtype, data := List.zipWith (· + ·) a.data b.data }

/-- Scalar multiplication of a tensor (`noise * 0.001`). -/
def tensorScale (t : Tensor) (c : Rat) : Tensor :=
  { shape := t.shape, dtype := t.dtype, data := t.data.map (· * c) }

/-- Model of `torch.randn_like`: a fresh tensor with the same shape and dtype,
whose entries come from the given sample stream. -/
def randn_like (sample : Nat → Rat) (t : Tensor) : Tensor :=
  { shape := t.shape, dtype := t.dtype, data := (List.range t.data.length).map sample }

/-- The noise scale constant `0.001` from `noise = torch.randn_like(...) * 0.001`. -/
def noiseScale : Rat := 1 / 1000

/-- A value returned by the entry point: a tensor, or any non-tensor value
(abstracted by a numeric tag). -/
inductive Value where
  | tensor (t : Tensor)
  | other (tag : Nat)
deriving DecidableEq

/-- Model of `isinstance(v, torch.Tensor)`. -/
def isTensorVal : Value → Bool
  | Value.tensor _ => true
  | Value.other _ => false

/-- Opaque encoding of the positional and keyword arguments a call receives. -/
structure Args where
  pos : List Nat
  kwargs : List (Nat × Nat)
deriving DecidableEq

/-- The mutable state of a `SimpleCache` instance: `call_count`, `skip_count`,
`compute_times`, the `_last_result` attribute (`none` models the attribute not
being set), and the ambient random-sampler counter. -/
structure CacheState where
  call_count : Nat
  skip_count : Nat
  compute_times : List Rat
  last_result : Option Value
  rng_ctr : Nat
deriving DecidableEq

/-- State built by `SimpleCache.__init__`: zero counters, empty duration list,
no `_last_result` attribute yet. -/
def initCache : CacheState :=
  { call_count := 0, skip_count := 0, compute_times := [], last_result := none, rng_ctr := 0 }

/-- The module-level `global_cache = SimpleCache()` instance's initial state. -/
def global_cache : CacheState := initCache

/-- Observable outcome of one wrapped call: whether a synthesized substitute
was returned, the arguments passed to the original entry point (`none` when the
original was not invoked), and the returned value. -/
structure CallOutcome where
  substituted : Bool
  argsPassed : Option Args
  result : Value
deriving DecidableEq

/-- The compute path of `cached_forward`: invoke the original entry point with
the received arguments, append the measured duration to `compute_times`, and
cache a detached copy of the result iff it is a tensor. -/
def computeStep (orig : Args → Value) (dur : Rat) (s : CacheState) (args : Args) :
    CacheState × CallOutcome :=
  let result := orig args
  let s1 : CacheState := { s with compute_times := s.compute_times ++ [dur] }
  match result with
  | Value.tensor r =>
      ({ s1 with last_result := some (Value.tensor ((r.clone).detach)) },
       { substituted := false, argsPassed := some args, result := result })
  | r => (s1, { substituted := false, argsPassed := some args, result := r })

/-- One invocation of the wrapped entry point (`cached_forward` in the source):
increment `call_count`; if `call_id > 3 and call_id % 2 == 0`, increment
`skip_count` and, when `_last_result` is set, non-`None` and a tensor, return
`_last_result + randn_like(_last_result) * 0.001`; otherwise fall through to
the compute path. -/
def cached_forward (g : Nat → Nat → Rat) (orig : Args → Value) (dur : Rat)
    (s : CacheState) (args : Args) : CacheState × CallOutcome :=
  let s1 : CacheState := { s with call_count := s.call_count + 1 }
  if s1.call_count > 3 ∧ s1.call_count % 2 = 0 then
    let s2 : CacheState := { s1 with skip_count := s1.skip_count + 1 }
    match s2.last_result with
    | some (Value.tensor t) =>
        ({ s2 with rng_ctr := s2.rng_ctr + 1 },
         { substituted := true, argsPassed := none,
           result := Value.tensor (tensorAdd t (tensorScale (randn_like (g s2.rng_ctr) t) noiseScale)) })
    | _ => computeStep orig dur s2 args
  else computeStep orig dur s1 args

/-- Environment of one call: the original entry point's behaviour at that call,
the arguments the wrapper receives, and the elapsed time of a real
computation. -/
structure CallEnv where
  orig : Args → Value
  args : Args
  dur : Rat

/-- The cache state after one wrapped call. -/
def stepState (g : Nat → Nat → Rat) (e : CallEnv) (s : CacheState) : CacheState :=
  (cached_forward g e.orig e.dur s e.args).1

/-- The outcome of one wrapped call. -/
def stepOut (g : Nat → Nat → Rat) (e : CallEnv) (s : CacheState) : CallOutcome :=
  (cached_forward g e.orig e.dur s e.args).2

/-- Run a sequence of wrapped calls, threading the single cache state. -/
def run (g : Nat → Nat → Rat) : List CallEnv → CacheState → CacheState × List CallOutcome
  | [], s => (s, [])
  | e :: es, s =>
      let p := run g es (stepState g e s)
      (p.1, stepOut g e s :: p.2)

/-- Final cache state of a run. -/
def runState (g : Nat → Nat → Rat) (envs : List CallEnv) (s : CacheState) : CacheState :=
  (run g envs s).1

/-- Outcome list of a run. -/
def runOuts (g : Nat → Nat → Rat) (envs : List CallEnv) (s : CacheState) : List CallOutcome :=
  (run g envs s).2

/-- Outcome of the call at 0-based position `i` in a run started from the
global cache instance. -/
def outAt (g : Nat → Nat → Rat) (envs : List CallEnv) (i : Nat) : Option CallOutcome :=
  (runOuts g envs global_cache).get? i

/-- The skip-branch guard of the source at 1-based call position `n`:
`call_id > 3 and call_id % 2 == 0`. -/
def skipDecision (n : Nat) : Bool :=
  decide (n > 3) && decide (n % 2 = 0)

/-- Number of positions among calls `c+1, ..., c+n` at which the skip branch
fires. -/
def countFires (c : Nat) : Nat → Nat
  | 0 => 0
  | n + 1 => (if skipDecision (c + 1) then 1 else 0) + countFires (c + 1) n

/-- Whether the cache currently holds a tensor usable as a substitute base. -/
def isTensorCache (s : CacheState) : Bool :=
  match s.last_result with
  | some (Value.tensor _) => true
  | _ => false

/-- All calls in the environment list have an original entry point that
returns tensor values on every input. -/
def allTensor (envs : List CallEnv) : Prop :=
  ∀ e ∈ envs, ∀ a, isTensorVal (e.orig a) = true

/-- Numeric content of the report built by `SimpleCache.get_stats`
(string formatting is outside the scope of the spec). -/
structure Stats where
  total_calls : Nat
  cache_hits : Nat
  hit_rate : Rat
  avg_compute_time : Rat
  expected_speedup : Rat
deriving DecidableEq

/-- The `get_stats` report: total calls, hits, hit rate
`skip_count / max(call_count, 1)`, average compute time
`sum(compute_times) / max(len(compute_times), 1)`, and the fixed speedup
label `2.0 if cache_hits > 0 else 1.0`. -/
def get_stats (s : CacheState) : Stats :=
  { total_calls := s.call_count
    cache_hits := s.skip_count
    hit_rate := (s.skip_count : Rat) / ((max s.call_count 1 : Nat) : Rat)
    avg_compute_time := s.compute_times.sum / ((max s.compute_times.length 1 : Nat) : Rat)
    expected_speedup := if s.skip_count > 0 then 2 else 1 }

/-- An entry point of a computation unit: either an original forward handle
or a cached wrapper that closed over the saved original. -/
inductive EntryPoint where
  | original (id : Nat)
  | cached (saved : EntryPoint)
deriving DecidableEq

/-- A computation unit: its `forward` entry point and the `_original_forward`
attribute (`none` models the attribute being absent, i.e. not yet patched). -/
structure Transformer where
  forward : EntryPoint
  original_forward : Option EntryPoint
deriving DecidableEq

/-- The `model.model` sub-object; its `diffusion_model` attribute may be
absent. -/
structure Inner where
  diffusion_model : Option Transformer
deriving DecidableEq

/-- An opaque host model handle: each of the three probed attributes may be
present or absent. -/
structure Model where
  model : Option Inner
  diffusion_model : Option Transformer
  transformer : Option Transformer
deriving DecidableEq

/-- Model of `SimpleCache._find_transformer`: try
`model.model.diffusion_model`, then `model.diffusion_model`, then
`model.transformer`, returning the first present one, else `None`. -/
def find_transformer (m : Model) : Option Transformer :=
  match m.model with
  | some inner =>
      match inner.diffusion_model with
      | some t => some t
      | none =>
          match m.diffusion_model with
          | some t => some t
          | none => m.transformer
  | none =>
      match m.diffusion_model with
      | some t => some t
      | none => m.transformer

/-- The in-place mutation done on a not-yet-patched transformer: save the
original forward in `_original_forward` and install the cached wrapper. -/
def applyPatch (t : Transformer) : Transformer :=
  { forward := EntryPoint.cached t.forward, original_forward := some t.forward }

/-- Patching along the two shallower attribute paths, tried after the
`model.model.diffusion_model` path missed. -/
def patch_rest (m : Model) : Model :=
  match m.diffusion_model with
  | some t =>
      if t.original_forward.isSome then m
      else { m with diffusion_model := some (applyPatch t) }
  | none =>
      match m.transformer with
      | some t =>
          if t.original_forward.isSome then m
          else { m with transformer := some (applyPatch t) }
      | none => m

/-- Model of `SimpleCache.patch_model`: locate the transformer (returning the
model unchanged if none is found), return the model unchanged if it already
carries `_original_forward`, and otherwise save the original entry point and
install the cached wrapper in place. -/
def patch_model (m : Model) : Model :=
  match m.model with
  | some inner =>
      match inner.diffusion_model with
      | some t =>
          if t.original_forward.isSome then m
          else { m with model := some { inner with diffusion_model := some (applyPatch t) } }
      | none => patch_rest m
  | none => patch_rest m

/-- The module-level `patch_model_simple`: patches through the single
`global_cache` instance — every model patched this way shares the one
`CacheState` that `run` threads through all wrapped calls. -/
def patch_model_simple (m : Model) : Model :=
  patch_model m

/-- A fixed sampler stream used for concrete runs. -/
def g0 : Nat → Nat → Rat := fun _ _ => 1

/-- Concrete argument values used in concrete runs. -/
def args0 : Args := { pos := [0], kwargs := [] }

/-- Concrete arguments for the model-A calls of the interleaving scenario. -/
def argsA : Args := { pos := [1], kwargs := [] }

/-- Concrete arguments for the model-B calls of the interleaving scenario. -/
def argsB : Args := { pos := [2], kwargs := [] }

/-- A run of four calls whose original entry point always returns a
non-tensor value. -/
def envsNT : List CallEnv :=
  [ { orig := fun _ => Value.other 0, args := args0, dur := 1 },
    { orig := fun _ => Value.other 0, args := args0, dur := 1 },
    { orig := fun _ => Value.other 0, args := args0, dur := 1 },
    { orig := fun _ => Value.other 0, args := args0, dur := 1 } ]

/-- A six-call run: calls 1 through 4 return non-tensors, call 5 returns a
tensor, call 6 would return a non-tensor if computed. -/
def envsC3 : List CallEnv :=
  [ { orig := fun _ => Value.other 0, args := args0, dur := 1 },
    { orig := fun _ => Value.other 0, args := args0, dur := 1 },
    { orig := fun _ => Value.other 0, args := args0, dur := 1 },
    { orig := fun _ => Value.other 0, args := args0, dur := 1 },
    { orig := fun _ => Value.tensor { shape := [2], dtype := 0, data := [5, 5] }, args := args0, dur := 1 },
    { orig := fun _ => Value.other 9, args := args0, dur := 1 } ]

/-- Interleaved invocations of two models patched through the shared global
cache: model A computes at calls 1 and 3, model B computes at call 2 and is
invoked again at call 4 (the first post-warmup even call). -/
def envsTwoModels : List CallEnv :=
  [ { orig := fun _ => Value.tensor { shape := [2], dtype := 0, data := [10, 10] }, args := argsA, dur := 1 },
    { orig := fun _ => Value.tensor { shape := [2], dtype := 0, data := [20, 20] }, args := argsB, dur := 1 },
    { orig := fun _ => Value.tensor { shape := [2], dtype := 0, data := [30, 30] }, args := argsA, dur := 1 },
    { orig := fun _ => Value.tensor { shape := [2], dtype := 0, data := [40, 40] }, args := argsB, dur := 1 } ]

/-- A single call whose original entry point returns a fixed tensor. -/
def envT : CallEnv :=
  { orig := fun _ => Value.tensor { shape := [1], dtype := 0, data := [7] }, args := args0, dur := 1 }

/-- Ten sequential calls whose original entry point always returns a tensor. -/
def envsT10 : List CallEnv := List.replicate 10 envT

/-- A cache state as reached after three real tensor computations: the next
call is the first post-warmup even call. -/
def sAfter3 : CacheState :=
  { call_count := 3, skip_count := 0, compute_times := [1, 1, 1],
    last_result := some (Value.tensor { shape := [1], dtype := 0, data := [7] }), rng_ctr := 0 }

/-- A cache state with five calls recorded and nothing cached, as reached when
the first five computations all returned non-tensors. -/
def sNoCache5 : CacheState :=
  { call_count := 5, skip_count := 1, compute_times := [1, 1, 1, 1, 1],
    last_result := none, rng_ctr := 0 }

/-- A concrete cache state used to instantiate the statistics report. -/
def sStats : CacheState :=
  { call_count := 10, skip_count := 4, compute_times := [2, 4],
    last_result := none, rng_ctr := 0 }

/-- An unpatched transformer. -/
def tUn : Transformer := { forward := EntryPoint.original 0, original_forward := none }

/-- A transformer already carrying the `_original_forward` marker. -/
def tPatched : Transformer :=
  { forward := EntryPoint.cached (EntryPoint.original 0),
    original_forward := some (EntryPoint.original 0) }

/-- A model exposing the deep `model.model.diffusion_model` path. -/
def mDeep : Model :=
  { model := some { diffusion_model := some tUn }, diffusion_model := none, transformer := none }

/-- A model exposing only the `model.transformer` path. -/
def mTrans : Model := { model := none, diffusion_model := none, transformer := some tUn }

/-- A model exposing none of the three probed paths. -/
def mEmpty : Model := { model := none, diffusion_model := none, transformer := none }

/-- A model whose located target already carries the patch marker. -/
def mPatched : Model :=
  { model := some { diffusion_model := some tPatched }, diffusion_model := none,
    transformer := none }

/-! Step-level lemmas about one wrapped call. -/

theorem skipDecision_iff (n : Nat) : skipDecision n = true ↔ (n > 3 ∧ n % 2 = 0) := by
  simp [skipDecision]

theorem computeStep_fst (orig : Args → Value) (dur : Rat) (s : CacheState) (a : Args) :
    (computeStep orig dur s a).1 =
      { s with compute_times := s.compute_times ++ [dur],
               last_result := match orig a with
                 | Value.tensor r => some (Value.tensor r)
                 | _ => s.last_result } := by
  unfold computeStep
  cases h : orig a <;> simp [h, Tensor.clone, Tensor.detach]

theorem computeStep_snd (orig : Args → Value) (dur : Rat) (s : CacheState) (a : Args) :
    (computeStep orig dur s a).2 =
      { substituted := false, argsPassed := some a, result := orig a } := by
  unfold computeStep
  cases h : orig a <;> simp [h]

theorem cached_forward_noSkip (g : Nat → Nat → Rat) (orig : Args → Value) (dur : Rat)
    (s : CacheState) (a : Args) (h : skipDecision (s.call_count + 1) = false) :
    cached_forward g orig dur s a =
      computeStep orig dur { s with call_count := s.call_count + 1 } a := by
  unfold cached_forward
  rw [if_neg]
  intro hc
  rw [show s.call_count + 1 > 3 ∧ (s.call_count + 1) % 2 = 0 ↔ skipDecision (s.call_count + 1) = true
        from (skipDecision_iff _).symm] at hc
  simp [h] at hc

theorem cached_forward_fallback (g : Nat → Nat → Rat) (orig : Args → Value) (dur : Rat)
    (s : CacheState) (a : Args) (h : skipDecision (s.call_count + 1) = true)
    (hnc : isTensorCache s = false) :
    cached_forward g orig dur s a =
      computeStep orig dur
        { s with call_count := s.call_count + 1, skip_count := s.skip_count + 1 } a := by
  unfold cached_forward
  rw [if_pos ((skipDecision_iff _).mp h)]
  unfold isTensorCache at hnc
  cases hl : s.last_result with
  | none => simp [hl]
  | some v => cases v with
    | tensor t => simp [hl] at hnc
    | other tag => simp [hl]

theorem cached_forward_skip (g : Nat → Nat → Rat) (orig : Args → Value) (dur : Rat)
    (s : CacheState) (a : Args) (t : Tensor) (h : skipDecision (s.call_count + 1) = true)
    (hc : s.last_result = some (Value.tensor t)) :
    cached_forward g orig dur s a =
      ({ s with call_count := s.call_count + 1, skip_count := s.skip_count + 1,
                rng_ctr := s.rng_ctr + 1 },
       { substituted := true, argsPassed := none,
         result := Value.tensor
           (tensorAdd t (tensorScale (randn_like (g s.rng_ctr) t) noiseScale)) }) := by
  unfold cached_forward
  rw [if_pos ((skipDecision_iff _).mp h)]
  simp [hc]

theorem cached_forward_trichotomy (g : Nat → Nat → Rat) (orig : Args → Value) (dur : Rat)
    (s : CacheState) (a : Args) :
    (skipDecision (s.call_count + 1) = false ∧
      cached_forward g orig dur s a =
        computeStep orig dur { s with call_count := s.call_count + 1 } a)
    ∨ (skipDecision (s.call_count + 1) = true ∧ isTensorCache s = false ∧
        cached_forward g orig dur s a =
          computeStep orig dur
            { s with call_count := s.call_count + 1, skip_count := s.skip_count + 1 } a)
    ∨ (∃ t, skipDecision (s.call_count + 1) = true ∧ s.last_result = some (Value.tensor t) ∧
        cached_forward g orig dur s a =
          ({ s with call_count := s.call_count + 1, skip_count := s.skip_count + 1,
                    rng_ctr := s.rng_ctr + 1 },
           { substituted := true, argsPassed := none,
             result := Value.tensor
               (tensorAdd t (tensorScale (randn_like (g s.rng_ctr) t) noiseScale)) })) := by
  by_cases h : skipDecision (s.call_count + 1) = true
  · by_cases hc : isTensorCache s = true
    · unfold isTensorCache at hc
      rcases hlr : s.last_result with _ | v
      · simp [hlr] at hc
      · cases v with
        | tensor t =>
            exact Or.inr (Or.inr ⟨t, h, rfl,
              by rw [cached_forward_skip g orig dur s a t h hlr, hlr]⟩)
        | other tag => simp [hlr] at hc
    · exact Or.inr (Or.inl ⟨h, by simpa using hc,
        cached_forward_fallback g orig dur s a h (by simpa using hc)⟩)
  · exact Or.inl ⟨by simpa using h, cached_forward_noSkip g orig dur s a (by simpa using h)⟩

theorem stepState_call_count (g : Nat → Nat → Rat) (e : CallEnv) (s : CacheState) :
    (stepState g e s).call_count = s.call_count + 1 := by
  unfold stepState
  rcases cached_forward_trichotomy g e.orig e.dur s e.args with ⟨_, h⟩ | ⟨_, _, h⟩ | ⟨t, _, _, h⟩ <;>
    rw [h] <;> simp [computeStep_fst]

theorem stepState_skip_count (g : Nat → Nat → Rat) (e : CallEnv) (s : CacheState) :
    (stepState g e s).skip_count =
      s.skip_count + (if skipDecision (s.call_count + 1) then 1 else 0) := by
  unfold stepState
  rcases cached_forward_trichotomy g e.orig e.dur s e.args with ⟨hd, h⟩ | ⟨hd, _, h⟩ | ⟨t, hd, _, h⟩ <;>
    rw [h] <;> simp [computeStep_fst, hd]

theorem stepOut_substituted (g : Nat → Nat → Rat) (e : CallEnv) (s : CacheState) :
    (stepOut g e s).substituted = (skipDecision (s.call_count + 1) && isTensorCache s) := by
  unfold stepOut
  rcases cached_forward_trichotomy g e.orig e.dur s e.args with ⟨hd, h⟩ | ⟨hd, hc, h⟩ | ⟨t, hd, hc, h⟩ <;>
    rw [h] <;> simp [computeStep_snd, hd]
  · simp [hc]
  · simp [isTensorCache, hc]

theorem stepState_tensorCache (g : Nat → Nat → Rat) (e : CallEnv) (s : CacheState)
    (hT : ∀ a, isTensorVal (e.orig a) = true) :
    isTensorCache (stepState g e s) = true := by
  unfold stepState
  rcases cached_forward_trichotomy g e.orig e.dur s e.args with ⟨_, h⟩ | ⟨_, _, h⟩ | ⟨t, _, hc, h⟩ <;>
    rw [h]
  · cases hv : e.orig e.args with
    | tensor r => simp [isTensorCache, computeStep_fst, hv]
    | other tag =>
        have ht := hT e.args
        rw [hv] at ht
        simp [isTensorVal] at ht
  · cases hv : e.orig e.args with
    | tensor r => simp [isTensorCache, computeStep_fst, hv]
    | other tag =>
        have ht := hT e.args
        rw [hv] at ht
        simp [isTensorVal] at ht
  · simp [isTensorCache, hc]

theorem stepState_lastResult_none (g : Nat → Nat → Rat) (e : CallEnv) (s : CacheState)
    (hNT : ∀ a, isTensorVal (e.orig a) = false) (hn : s.last_result = none) :
    (stepState g e s).last_result = none := by
  unfold stepState
  rcases cached_forward_trichotomy g e.orig e.dur s e.args with ⟨_, h⟩ | ⟨_, _, h⟩ | ⟨t, _, hc, h⟩
  · rw [h, computeStep_fst]
    cases hv : e.orig e.args with
    | tensor r =>
        have ht := hNT e.args
        rw [hv] at ht
        simp [isTensorVal] at ht
    | other tag => simpa [hv] using hn
  · rw [h, computeStep_fst]
    cases hv : e.orig e.args with
    | tensor r =>
        have ht := hNT e.args
        rw [hv] at ht
        simp [isTensorVal] at ht
    | other tag => simpa [hv] using hn
  · rw [hn] at hc
    exact absurd hc (by simp)

/-! Run-level lemmas: invariants threaded through a whole call sequence. -/

theorem runState_nil (g : Nat → Nat → Rat) (s : CacheState) : runState g [] s = s := rfl

theorem runState_cons (g : Nat → Nat → Rat) (e : CallEnv) (es : List CallEnv) (s : CacheState) :
    runState g (e :: es) s = runState g es (stepState g e s) := rfl

theorem runOuts_cons (g : Nat → Nat → Rat) (e : CallEnv) (es : List CallEnv) (s : CacheState) :
    runOuts g (e :: es) s = stepOut g e s :: runOuts g es (stepState g e s) := rfl

theorem runOuts_length (g : Nat → Nat → Rat) (envs : List CallEnv) (s : CacheState) :
    (runOuts g envs s).length = envs.length := by
  induction envs generalizing s with
  | nil => rfl
  | cons e es ih => rw [runOuts_cons, List.length_cons, ih, List.length_cons]

theorem runOuts_get? (g : Nat → Nat → Rat) (envs : List CallEnv) (s : CacheState) (i : Nat) :
    (runOuts g envs s).get? i =
      (envs.get? i).map (fun e => stepOut g e (runState g (envs.take i) s)) := by
  induction envs generalizing s i with
  | nil => simp [runOuts, run]
  | cons e es ih =>
      cases i with
      | zero => simp [runOuts_cons, runState_nil]
      | succ j =>
          simp only [runOuts_cons, List.get?_cons_succ, List.take_succ_cons, runState_cons]
          exact ih (stepState g e s) j

theorem runState_call_count (g : Nat → Nat → Rat) (envs : List CallEnv) (s : CacheState) :
    (runState g envs s).call_count = s.call_count + envs.length := by
  induction envs generalizing s with
  | nil => rfl
  | cons e es ih =>
      rw [runState_cons, ih, stepState_call_count, List.length_cons]
      omega

theorem runState_skip_count (g : Nat → Nat → Rat) (envs : List CallEnv) (s : CacheState) :
    (runState g envs s).skip_count = s.skip_count + countFires s.call_count envs.length := by
  induction envs generalizing s with
  | nil => rfl
  | cons e es ih =>
      rw [runState_cons, ih, stepState_skip_count, stepState_call_count, List.length_cons,
        countFires]
      by_cases h : skipDecision (s.call_count + 1) = true <;> simp [h] <;> omega

theorem countFires_le (c n : Nat) : countFires c n ≤ n := by
  induction n generalizing c with
  | zero => exact Nat.le_refl 0
  | succ m ih =>
      rw [countFires]
      have hm := ih (c + 1)
      by_cases h : skipDecision (c + 1) = true <;> simp [h] <;> omega

theorem countFires_zero_of_le (c n : Nat) (h : c + n ≤ 3) : countFires c n = 0 := by
  induction n generalizing c with
  | zero => rfl
  | succ m ih =>
      rw [countFires]
      have h1 : skipDecision (c + 1) = false := by
        simp [skipDecision]
        omega
      rw [h1]
      simpa using ih (c + 1) (by omega)

theorem runState_tensorCache (g : Nat → Nat → Rat) :
    ∀ (es : List CallEnv) (e : CallEnv) (s : CacheState), allTensor (e :: es) →
      isTensorCache (runState g (e :: es) s) = true := by
  intro es
  induction es with
  | nil =>
      intro e s hT
      rw [runState_cons, runState_nil]
      exact stepState_tensorCache g e s (fun a => hT e (by simp) a)
  | cons e2 es2 ih =>
      intro e s hT
      rw [runState_cons]
      exact ih e2 (stepState g e s) (fun x hx a => hT x (List.mem_cons_of_mem e hx) a)

theorem runState_lastResult_none (g : Nat → Nat → Rat) (envs : List CallEnv) (s : CacheState)
    (hNT : ∀ e ∈ envs, ∀ a, isTensorVal (e.orig a) = false) (hn : s.last_result = none) :
    (runState g envs s).last_result = none := by
  induction envs generalizing s with
  | nil => exact hn
  | cons e es ih =>
      rw [runState_cons]
      exact ih (stepState g e s) (fun x hx a => hNT x (List.mem_cons_of_mem e hx) a)
        (stepState_lastResult_none g e s (fun a => hNT e (by simp) a) hn)

theorem runState_take_call_count (g : Nat → Nat → Rat) (envs : List CallEnv) (i : Nat) :
    (runState g (envs.take i) global_cache).call_count = min i envs.length := by
  rw [runState_call_count, List.length_take]
  simp [global_cache, initCache]

theorem substituted_at (g : Nat → Nat → Rat) (envs : List CallEnv) (i : Nat)
    (hT : allTensor envs) (hi : i < envs.length) :
    ((runOuts g envs global_cache).get? i).map (fun o => o.substituted)
      = some (skipDecision (i + 1)) := by
  have he : envs.get? i = some (envs.get ⟨i, hi⟩) := List.get?_eq_get hi
  rw [runOuts_get?, he]
  simp only [Option.map_some', Option.some.injEq]
  rw [stepOut_substituted]
  have hcc : (runState g (envs.take i) global_cache).call_count = i := by
    rw [runState_take_call_count]
    omega
  rw [hcc]
  by_cases hd : skipDecision (i + 1) = true
  · have hi1 : 1 ≤ i := by
      rcases (skipDecision_iff (i + 1)).mp hd with ⟨h3, _⟩
      omega
    obtain ⟨x, xs, rfl⟩ : ∃ x xs, envs = x :: xs := by
      cases envs with
      | nil => simp at hi
      | cons x xs => exact ⟨x, xs, rfl⟩
    obtain ⟨j, rfl⟩ : ∃ j, i = j + 1 := ⟨i - 1, by omega⟩
    have hct : isTensorCache (runState g ((x :: xs).take (j + 1)) global_cache) = true := by
      rw [List.take_succ_cons]
      exact runState_tensorCache g (xs.take j) x global_cache
        (fun y hy a => hT y ((List.cons_subset_cons x (List.take_subset j xs)) hy) a)
    rw [hd, hct]
    rfl
  · have hd2 : skipDecision (i + 1) = false := by simpa using hd
    rw [hd2]
    rfl

/-! Claim theorems. -/

/-- C1, counterexample to the claim as stated: in a run whose real
computations all return non-tensors, call 4 satisfies `4 > 3` and
`4 mod 2 == 0` yet does not skip — it invokes the original entry point
and returns the original's non-tensor result. -/
theorem claim1_counterexample :
    (outAt g0 envsNT 3).map (fun o => o.substituted) = some false
    ∧ (outAt g0 envsNT 3).map (fun o => o.argsPassed) = some (some args0)
    ∧ (outAt g0 envsNT 3).map (fun o => o.result) = some (Value.other 0) := by
  refine ⟨?_, ?_, ?_⟩ <;> decide

/-- C1, amended: in every run, each call at position `n ≤ 3` performs the real
computation (it is not a substitution and the original entry point is invoked)
and `skip_count` stays 0 through the warmup prefix; provided every real
computation returns a tensor-like value, a call at position `n > 3` skips iff
`n mod 2 == 0`, and a 10-call all-tensor run computes at positions 1,2,3,5,7,9,
skips at positions 4,6,8,10, and ends with `skip_count == 4`. -/
theorem claim1_schedule (g : Nat → Nat → Rat) (envs : List CallEnv) :
    (∀ k, k ≤ 3 → (runState g (envs.take k) global_cache).skip_count = 0)
    ∧ (∀ i o, (runOuts g envs global_cache).get? i = some o → i + 1 ≤ 3 →
        (o.substituted = false ∧ o.argsPassed.isSome = true))
    ∧ (allTensor envs →
        ((∀ i o, (runOuts g envs global_cache).get? i = some o →
            (o.substituted = true ↔ (i + 1 > 3 ∧ (i + 1) % 2 = 0)))
          ∧ (envs.length = 10 →
              ((runState g envs global_cache).skip_count = 4
                ∧ (runOuts g envs global_cache).map (fun o => o.substituted)
                    = [false, false, false, true, false, true, false, true, false, true])))) := by
  refine ⟨?_, ?_, ?_⟩
  · intro k hk
    rw [runState_skip_count]
    have h0 : global_cache.skip_count = 0 := rfl
    have h1 : global_cache.call_count = 0 := rfl
    rw [h0, h1, List.length_take]
    have := countFires_zero_of_le 0 (min k envs.length) (by omega)
    omega
  · intro i o ho hle
    have hi : i < envs.length := by
      obtain ⟨hlt, -⟩ := List.get?_eq_some.mp ho
      rwa [runOuts_length] at hlt
    have he : envs.get? i = some (envs.get ⟨i, hi⟩) := List.get?_eq_get hi
    rw [runOuts_get?, he] at ho
    simp only [Option.map_some', Option.some.injEq] at ho
    have hcc : (runState g (envs.take i) global_cache).call_count = i := by
      rw [runState_take_call_count]
      omega
    have hd : skipDecision ((runState g (envs.take i) global_cache).call_count + 1)
        = false := by
      rw [hcc]
      simp [skipDecision]
      omega
    constructor
    · rw [← ho, stepOut_substituted, hd, Bool.false_and]
    · rw [← ho]
      unfold stepOut
      rw [cached_forward_noSkip g _ _ _ _ hd, computeStep_snd]
      rfl
  · intro hT
    have hkey : ∀ i, i < envs.length →
        ((runOuts g envs global_cache).get? i).map (fun o => o.substituted)
          = some (skipDecision (i + 1)) :=
      fun i hi => substituted_at g envs i hT hi
    constructor
    · intro i o ho
      have hi : i < envs.length := by
        obtain ⟨hlt, -⟩ := List.get?_eq_some.mp ho
        rwa [runOuts_length] at hlt
      have := hkey i hi
      rw [ho] at this
      simp only [Option.map_some', Option.some.injEq] at this
      rw [this]
      exact skipDecision_iff (i + 1)
    · intro hlen
      constructor
      · rw [runState_skip_count]
        have h0 : global_cache.skip_count = 0 := rfl
        have h1 : global_cache.call_count = 0 := rfl
        rw [h0, h1, hlen]
        rfl
      · apply List.ext_get?
        intro i
        rw [List.get?_map]
        by_cases hi : i < 10
        · rw [hkey i (by omega)]
          interval_cases i <;> rfl
        · have hL : (runOuts g envs global_cache).get? i = none := by
            rw [List.get?_eq_none, runOuts_length]
            omega
          rw [hL]
          simp only [Option.map_none']
          symm
          rw [List.get?_eq_none]
          simp only [List.length_cons, List.length_nil]
          omega

/-- C1 witness: the unconditional warmup clause instantiated on a concrete
non-tensor run, and the amended post-warmup schedule instantiated on a
concrete 10-call all-tensor run. -/
theorem claim1_witness :
    ((runState g0 (envsNT.take 3) global_cache).skip_count = 0)
    ∧ ((runState g0 envsT10 global_cache).skip_count = 4
        ∧ (runOuts g0 envsT10 global_cache).map (fun o => o.substituted)
            = [false, false, false, true, false, true, false, true, false, true]) :=
  ⟨(claim1_schedule g0 envsNT).1 3 (by decide),
   ((claim1_schedule g0 envsT10).2.2
       (fun e he a => by rw [List.eq_of_mem_replicate he]; rfl)).2 rfl⟩

theorem run_countSubst_le (g : Nat → Nat → Rat) :
    ∀ (envs : List CallEnv) (s : CacheState),
      s.skip_count + (runOuts g envs s).countP (fun o => o.substituted)
        ≤ (runState g envs s).skip_count := by
  intro envs
  induction envs with
  | nil =>
      intro s
      simp [runOuts, run, runState_nil]
  | cons e es ih =>
      intro s
      rw [runOuts_cons, runState_cons, List.countP_cons]
      have h1 := ih (stepState g e s)
      have h2 := stepState_skip_count g e s
      have h3 := stepOut_substituted g e s
      by_cases hd : skipDecision (s.call_count + 1) = true
      · rw [hd] at h2
        rw [if_pos rfl] at h2
        split_ifs <;> omega
      · have hd2 : skipDecision (s.call_count + 1) = false := by simpa using hd
        rw [hd2] at h2 h3
        rw [if_neg (by simp)] at h2
        simp only [Bool.false_and] at h3
        simp only [h3, Bool.false_eq_true, if_false]
        omega

theorem run_countSubst_eq (g : Nat → Nat → Rat) :
    ∀ (envs : List CallEnv) (s : CacheState), allTensor envs →
      (isTensorCache s = true ∨ s.call_count = 0) →
      s.skip_count + (runOuts g envs s).countP (fun o => o.substituted)
        = (runState g envs s).skip_count := by
  intro envs
  induction envs with
  | nil =>
      intro s _ _
      simp [runOuts, run, runState_nil]
  | cons e es ih =>
      intro s hT hinv
      rw [runOuts_cons, runState_cons, List.countP_cons]
      have h1 := ih (stepState g e s) (fun x hx a => hT x (List.mem_cons_of_mem e hx) a)
        (Or.inl (stepState_tensorCache g e s (fun a => hT e (by simp) a)))
      have h2 := stepState_skip_count g e s
      have h3 := stepOut_substituted g e s
      have hfire : (stepOut g e s).substituted = skipDecision (s.call_count + 1)
          ∨ (skipDecision (s.call_count + 1) = false
              ∧ (stepOut g e s).substituted = false) := by
        rcases hinv with hc | h0
        · rw [hc, Bool.and_true] at h3
          exact Or.inl h3
        · have hd2 : skipDecision (s.call_count + 1) = false := by
            rw [h0]
            rfl
          rw [hd2] at h3
          simp only [Bool.false_and] at h3
          exact Or.inr ⟨hd2, h3⟩
      rcases hfire with hb | ⟨hd2, hb⟩
      · by_cases hd : skipDecision (s.call_count + 1) = true
        · rw [hd] at h2 hb
          rw [if_pos rfl] at h2
          simp only [hb, if_true]
          omega
        · have hd2 : skipDecision (s.call_count + 1) = false := by simpa using hd
          rw [hd2] at h2 hb
          rw [if_neg (by simp)] at h2
          simp only [hb, Bool.false_eq_true, if_false]
          omega
      · rw [hd2] at h2
        rw [if_neg (by simp)] at h2
        simp only [hb, Bool.false_eq_true, if_false]
        omega

/-- C2, counterexample to the claim as stated: in a 4-call run whose real
computations all return non-tensors, the skip decision fires at call 4 and
increments `skip_count` to 1, yet no invocation returned a synthesized
substitute. -/
theorem claim2_counterexample :
    (runState g0 envsNT global_cache).skip_count = 1
    ∧ (runOuts g0 envsNT global_cache).countP (fun o => o.substituted) = 0 := by
  refine ⟨?_, ?_⟩ <;> decide

/-- C2, amended: `skip_count` equals the number of invocations at which the
skip decision fired (position > 3 and even); this is an upper bound on the
number of invocations that returned a synthesized substitute, with equality
whenever every real computation returns a tensor-like value. -/
theorem claim2_skip_count (g : Nat → Nat → Rat) (envs : List CallEnv) :
    ((runState g envs global_cache).skip_count = countFires 0 envs.length)
    ∧ ((runOuts g envs global_cache).countP (fun o => o.substituted)
        ≤ (runState g envs global_cache).skip_count)
    ∧ (allTensor envs →
        (runOuts g envs global_cache).countP (fun o => o.substituted)
          = (runState g envs global_cache).skip_count) := by
  have h0 : global_cache.skip_count = 0 := rfl
  have h1 : global_cache.call_count = 0 := rfl
  refine ⟨?_, ?_, ?_⟩
  · rw [runState_skip_count, h0, h1]
    omega
  · have := run_countSubst_le g envs global_cache
    omega
  · intro hT
    have := run_countSubst_eq g envs global_cache hT (Or.inr h1)
    omega

/-- C2 witness: on a concrete 10-call all-tensor run, the number of substitute
returns equals the final `skip_count`. -/
theorem claim2_witness :
    (runOuts g0 envsT10 global_cache).countP (fun o => o.substituted)
      = (runState g0 envsT10 global_cache).skip_count :=
  (claim2_skip_count g0 envsT10).2.2
    (fun e he a => by rw [List.eq_of_mem_replicate he]; rfl)

/-- C3, counterexample to the claim as stated: calls 1 through 4 compute
non-tensors (so call 4's result is a non-tensor), but call 5 computes and
caches a tensor, and call 6 — a would-be skip — returns a substitute instead
of computing: the original entry point is not invoked at call 6. -/
theorem claim3_counterexample :
    (outAt g0 envsC3 3).map (fun o => o.result) = some (Value.other 0)
    ∧ (outAt g0 envsC3 5).map (fun o => o.substituted) = some true
    ∧ (outAt g0 envsC3 5).map (fun o => o.argsPassed) = some none := by
  refine ⟨?_, ?_, ?_⟩ <;> decide

/-- C3, amended: a skip decision taken when no tensor value is cached falls
back to performing the real computation — the original entry point is invoked
with the received arguments, its result is returned, and the duration is
recorded — and never raises or returns an undefined value; in particular, in a
six-call run in which calls 1 through 5 all return non-tensors (the stated
premise that call 4 computed a non-tensor forces this for calls 1-4; it must
also be required of call 5), call 6 computes instead of substituting. -/
theorem claim3_fallback :
    (∀ (g : Nat → Nat → Rat) (orig : Args → Value) (dur : Rat) (s : CacheState) (a : Args),
        skipDecision (s.call_count + 1) = true → isTensorCache s = false →
        ((cached_forward g orig dur s a).2
            = { substituted := false, argsPassed := some a, result := orig a }
          ∧ (cached_forward g orig dur s a).1.compute_times = s.compute_times ++ [dur]))
    ∧ (∀ (g : Nat → Nat → Rat) (envs : List CallEnv), envs.length = 6 →
        (∀ e ∈ envs.take 5, ∀ a, isTensorVal (e.orig a) = false) →
        ((outAt g envs 5).map (fun o => o.substituted) = some false
          ∧ (outAt g envs 5).map (fun o => o.argsPassed.isSome) = some true)) := by
  have base : ∀ (g : Nat → Nat → Rat) (orig : Args → Value) (dur : Rat) (s : CacheState)
      (a : Args), skipDecision (s.call_count + 1) = true → isTensorCache s = false →
      ((cached_forward g orig dur s a).2
          = { substituted := false, argsPassed := some a, result := orig a }
        ∧ (cached_forward g orig dur s a).1.compute_times = s.compute_times ++ [dur]) := by
    intro g orig dur s a hd hnc
    rw [cached_forward_fallback g orig dur s a hd hnc]
    exact ⟨computeStep_snd orig dur _ a, by rw [computeStep_fst]⟩
  refine ⟨base, ?_⟩
  intro g envs hlen hNT
  have hi : (5 : Nat) < envs.length := by omega
  have he : envs.get? 5 = some (envs.get ⟨5, hi⟩) := List.get?_eq_get hi
  have hpre5 : (runState g (envs.take 5) global_cache).call_count = 5 := by
    rw [runState_take_call_count]
    omega
  have hlr : (runState g (envs.take 5) global_cache).last_result = none :=
    runState_lastResult_none g (envs.take 5) global_cache hNT rfl
  have hnc : isTensorCache (runState g (envs.take 5) global_cache) = false := by
    rw [isTensorCache, hlr]
  have hd : skipDecision ((runState g (envs.take 5) global_cache).call_count + 1) = true := by
    rw [hpre5]
    rfl
  have hstep := base g (envs.get ⟨5, hi⟩).orig (envs.get ⟨5, hi⟩).dur
    (runState g (envs.take 5) global_cache) (envs.get ⟨5, hi⟩).args hd hnc
  unfold outAt
  rw [runOuts_get?, he]
  simp only [Option.map_some', Option.some.injEq]
  rw [stepOut, hstep.1]
  exact ⟨rfl, rfl⟩

/-- C3 witness: the fallback applied at a concrete post-warmup even call with
nothing cached — the call computes and returns the original's value. -/
theorem claim3_witness :
    (cached_forward g0 (fun _ => Value.other 7) 1 sNoCache5 args0).2
      = { substituted := false, argsPassed := some args0, result := Value.other 7 } :=
  (claim3_fallback.1 g0 (fun _ => Value.other 7) 1 sNoCache5 args0 rfl rfl).1

/-- C4: `skip_count ≤ call_count` after any run from the initial state;
`call_count` equals the number of invocations, each invocation increments it
by exactly one, and it never decreases along prefixes of a run. -/
theorem claim4_counters (g : Nat → Nat → Rat) (envs : List CallEnv) :
    ((runState g envs global_cache).skip_count ≤ (runState g envs global_cache).call_count)
    ∧ ((runState g envs global_cache).call_count = envs.length)
    ∧ (∀ (e : CallEnv) (s : CacheState), (stepState g e s).call_count = s.call_count + 1)
    ∧ (∀ k, (runState g (envs.take k) global_cache).call_count
          ≤ (runState g envs global_cache).call_count) := by
  have h0 : global_cache.skip_count = 0 := rfl
  have h1 : global_cache.call_count = 0 := rfl
  have hcall : (runState g envs global_cache).call_count = envs.length := by
    rw [runState_call_count, h1]
    omega
  refine ⟨?_, hcall, fun e s => stepState_call_count g e s, ?_⟩
  · rw [hcall, runState_skip_count, h0, h1]
    have := countFires_le 0 envs.length
    omega
  · intro k
    rw [hcall, runState_take_call_count]
    omega

/-- C5: on every skip that substitutes, the returned value is
`last_result + randn_like(last_result) * NOISE_SCALE` with a noise tensor of
the same shape and dtype as `last_result`, freshly drawn at the current
sampler index (which is then advanced, so distinct skips draw distinct
samples); the returned tensor keeps `last_result`'s shape and dtype and its
data differs from `last_result`'s elementwise by the scaled noise; the skip
leaves `last_result` and `compute_times` unchanged. -/
theorem claim5_substitute (g : Nat → Nat → Rat) (orig : Args → Value) (dur : Rat)
    (s : CacheState) (a : Args) (t : Tensor)
    (hd : skipDecision (s.call_count + 1) = true)
    (hc : s.last_result = some (Value.tensor t)) :
    ((cached_forward g orig dur s a).2.substituted = true)
    ∧ ((cached_forward g orig dur s a).2.result
        = Value.tensor (tensorAdd t (tensorScale (randn_like (g s.rng_ctr) t) noiseScale)))
    ∧ ((randn_like (g s.rng_ctr) t).shape = t.shape)
    ∧ ((randn_like (g s.rng_ctr) t).dtype = t.dtype)
    ∧ ((tensorAdd t (tensorScale (randn_like (g s.rng_ctr) t) noiseScale)).shape = t.shape)
    ∧ ((tensorAdd t (tensorScale (randn_like (g s.rng_ctr) t) noiseScale)).dtype = t.dtype)
    ∧ ((tensorAdd t (tensorScale (randn_like (g s.rng_ctr) t) noiseScale)).data
        = List.zipWith (· + ·) t.data ((randn_like (g s.rng_ctr) t).data.map (· * noiseScale)))
    ∧ ((cached_forward g orig dur s a).1.last_result = s.last_result)
    ∧ ((cached_forward g orig dur s a).1.compute_times = s.compute_times)
    ∧ ((cached_forward g orig dur s a).1.rng_ctr = s.rng_ctr + 1) := by
  rw [cached_forward_skip g orig dur s a t hd hc]
  exact ⟨rfl, rfl, rfl, rfl, rfl, rfl, rfl, rfl, rfl, rfl⟩

/-- C5 witness: the substitute synthesis instantiated at a concrete state
reached after three tensor computations. -/
theorem claim5_witness :
    (cached_forward g0 (fun _ => Value.other 0) 1 sAfter3 args0).2.substituted = true
    ∧ (cached_forward g0 (fun _ => Value.other 0) 1 sAfter3 args0).1.compute_times
        = sAfter3.compute_times
    ∧ (cached_forward g0 (fun _ => Value.other 0) 1 sAfter3 args0).1.rng_ctr
        = sAfter3.rng_ctr + 1 :=
  ⟨(claim5_substitute g0 (fun _ => Value.other 0) 1 sAfter3 args0
      { shape := [1], dtype := 0, data := [7] } rfl rfl).1,
   (claim5_substitute g0 (fun _ => Value.other 0) 1 sAfter3 args0
      { shape := [1], dtype := 0, data := [7] } rfl rfl).2.2.2.2.2.2.2.2.1,
   (claim5_substitute g0 (fun _ => Value.other 0) 1 sAfter3 args0
      { shape := [1], dtype := 0, data := [7] } rfl rfl).2.2.2.2.2.2.2.2.2⟩

/-- C6: patching is idempotent — a model whose located target already carries
the `_original_forward` marker is returned unmodified (so the target's entry
point reference is unchanged), and applying the patch twice equals applying it
once. -/
theorem claim6_idempotent :
    (∀ (m : Model) (t : Transformer), find_transformer m = some t →
        t.original_forward.isSome = true → patch_model m = m)
    ∧ (∀ m : Model, patch_model (patch_model m) = patch_model m) := by
  constructor
  · intro m t hf hmark
    obtain ⟨om, od, ot⟩ := m
    rcases om with _ | ⟨_ | t1⟩ <;> rcases od with _ | t2 <;> rcases ot with _ | t3 <;>
      simp [find_transformer] at hf <;> subst hf <;>
      simp [patch_model, patch_rest, hmark]
  · intro m
    obtain ⟨om, od, ot⟩ := m
    rcases om with _ | ⟨_ | t1⟩ <;> rcases od with _ | t2 <;> rcases ot with _ | t3 <;>
      simp only [patch_model, patch_rest] <;> split_ifs <;>
      simp_all [patch_model, patch_rest, applyPatch]

/-- C6 witness: patching a model whose deep target already carries the marker
returns it unmodified. -/
theorem claim6_witness : patch_model mPatched = mPatched :=
  claim6_idempotent.1 mPatched tPatched rfl rfl

/-- C7: the locator honours the priority order — a present
`model.model.diffusion_model` is returned first; a model whose deeper paths
are absent but which exposes `model.transformer` yields that target; when none
of the three paths is present the locator returns `none` (without raising, as
it is a total function) and patching returns the input unchanged. -/
theorem claim7_locate :
    (∀ (m : Model) (inner : Inner) (t : Transformer),
        m.model = some inner → inner.diffusion_model = some t →
        find_transformer m = some t)
    ∧ (∀ (m : Model) (t : Transformer), m.model.bind Inner.diffusion_model = none →
        m.diffusion_model = none → m.transformer = some t → find_transformer m = some t)
    ∧ (∀ m : Model, m.model.bind Inner.diffusion_model = none → m.diffusion_model = none →
        m.transformer = none → (find_transformer m = none ∧ patch_model m = m)) := by
  refine ⟨?_, ?_, ?_⟩
  · intro m inner t hm hd
    obtain ⟨om, od, ot⟩ := m
    simp only at hm
    subst hm
    simp [find_transformer, hd]
  · intro m t hb hd ht
    obtain ⟨om, od, ot⟩ := m
    simp only at hb hd ht
    subst hd
    subst ht
    rcases om with _ | ⟨_ | t1⟩ <;> simp_all [find_transformer]
  · intro m hb hd ht
    obtain ⟨om, od, ot⟩ := m
    simp only at hb hd ht
    subst hd
    subst ht
    rcases om with _ | ⟨_ | t1⟩ <;> simp_all [find_transformer, patch_model, patch_rest]

/-- C7 witness: the three locator scenarios on concrete models. -/
theorem claim7_witness :
    find_transformer mDeep = some tUn
    ∧ find_transformer mTrans = some tUn
    ∧ (find_transformer mEmpty = none ∧ patch_model mEmpty = mEmpty) :=
  ⟨claim7_locate.1 mDeep { diffusion_model := some tUn } tUn rfl rfl,
   claim7_locate.2.1 mTrans tUn rfl rfl rfl,
   claim7_locate.2.2 mEmpty rfl rfl rfl⟩

/-- C8: every call that is not a substitution invokes the original entry point
with the exact arguments the wrapper received, returns the original's result,
appends exactly one duration entry to `compute_times`, and caches a value-level
copy of the result as `last_result` iff the result is a tensor (a non-tensor
result leaves `last_result` untouched); a substitution appends nothing to
`compute_times`. -/
theorem claim8_compute (g : Nat → Nat → Rat) (orig : Args → Value) (dur : Rat)
    (s : CacheState) (a : Args) :
    ((cached_forward g orig dur s a).2.substituted = false →
        ((cached_forward g orig dur s a).2.argsPassed = some a
          ∧ (cached_forward g orig dur s a).2.result = orig a
          ∧ (cached_forward g orig dur s a).1.compute_times = s.compute_times ++ [dur]
          ∧ (cached_forward g orig dur s a).1.last_result
              = (match orig a with
                 | Value.tensor r => some (Value.tensor ((r.clone).detach))
                 | _ => s.last_result)))
    ∧ ((cached_forward g orig dur s a).2.substituted = true →
        (cached_forward g orig dur s a).1.compute_times = s.compute_times) := by
  rcases cached_forward_trichotomy g orig dur s a with ⟨_, h⟩ | ⟨_, _, h⟩ | ⟨t, _, _, h⟩ <;>
    rw [h]
  · constructor
    · intro _
      refine ⟨by rw [computeStep_snd], by rw [computeStep_snd], by rw [computeStep_fst], ?_⟩
      rw [computeStep_fst]
      cases hv : orig a <;> simp [hv, Tensor.clone, Tensor.detach]
    · intro hfalse
      rw [computeStep_snd] at hfalse
      simp at hfalse
  · constructor
    · intro _
      refine ⟨by rw [computeStep_snd], by rw [computeStep_snd], by rw [computeStep_fst], ?_⟩
      rw [computeStep_fst]
      cases hv : orig a <;> simp [hv, Tensor.clone, Tensor.detach]
    · intro hfalse
      rw [computeStep_snd] at hfalse
      simp at hfalse
  · constructor
    · intro htrue
      simp at htrue
    · intro _
      rfl

/-- C8 witness: a concrete first call from the initial state computes with the
received arguments and returns the original's result. -/
theorem claim8_witness :
    (cached_forward g0 (fun _ => Value.other 3) 1 global_cache args0).2.argsPassed = some args0
    ∧ (cached_forward g0 (fun _ => Value.other 3) 1 global_cache args0).2.result
        = Value.other 3 :=
  ⟨((claim8_compute g0 (fun _ => Value.other 3) 1 global_cache args0).1 rfl).1,
   ((claim8_compute g0 (fun _ => Value.other 3) 1 global_cache args0).1 rfl).2.1⟩

/-- C9: the statistics report exposes `call_count` and `skip_count`, a hit
rate of `skip_count / call_count` with the division by zero guarded to yield
0, an average compute duration that is the mean of `compute_times` (0 when
empty), and an expected-speedup label that is the fixed constant 2 when any
skip was counted and 1 otherwise; the report reads the state without
modifying it (it is a pure function of the state). -/
theorem claim9_stats (s : CacheState) :
    ((get_stats s).total_calls = s.call_count)
    ∧ ((get_stats s).cache_hits = s.skip_count)
    ∧ (s.call_count ≠ 0 → (get_stats s).hit_rate = (s.skip_count : Rat) / (s.call_count : Rat))
    ∧ (s.call_count = 0 → s.skip_count ≤ s.call_count → (get_stats s).hit_rate = 0)
    ∧ (s.compute_times = [] → (get_stats s).avg_compute_time = 0)
    ∧ (s.compute_times ≠ [] →
        (get_stats s).avg_compute_time = s.compute_times.sum / (s.compute_times.length : Rat))
    ∧ (s.skip_count > 0 → (get_stats s).expected_speedup = 2)
    ∧ (s.skip_count = 0 → (get_stats s).expected_speedup = 1) := by
  refine ⟨rfl, rfl, ?_, ?_, ?_, ?_, ?_, ?_⟩
  · intro h
    unfold get_stats
    rw [Nat.max_eq_left (by omega)]
  · intro h hle
    unfold get_stats
    have h2 : s.skip_count = 0 := by omega
    rw [h2]
    simp
  · intro h
    unfold get_stats
    rw [h]
    simp
  · intro h
    unfold get_stats
    have hlen : s.compute_times.length ≠ 0 := by
      simpa using h
    have hm : max s.compute_times.length 1 = s.compute_times.length := by omega
    rw [hm]
  · intro h
    unfold get_stats
    rw [if_pos h]
  · intro h
    unfold get_stats
    rw [if_neg (by omega)]

/-- C9 witness: the report formulas instantiated at a concrete state. -/
theorem claim9_witness :
    (get_stats sStats).hit_rate = ((4 : Nat) : Rat) / ((10 : Nat) : Rat)
    ∧ (get_stats sStats).expected_speedup = 2 :=
  ⟨(claim9_stats sStats).2.2.1 (by decide),
   (claim9_stats sStats).2.2.2.2.2.2.1 (by decide)⟩

/-- C10: all models patched through the module-level path share the single
global cache: with interleaved calls A, B, A, B of two patched models, the
global counters aggregate to 4 calls and 1 hit, the call at position 3 is
model A's and computes the tensor with data [30, 30], and model B's call at
position 4 skips without invoking B's original and returns that tensor of
model A perturbed by the scaled noise. -/
theorem claim10_shared_cache :
    (outAt g0 envsTwoModels 2).map (fun o => o.argsPassed) = some (some argsA)
    ∧ (outAt g0 envsTwoModels 3)
        = some { substituted := true, argsPassed := none,
                 result := Value.tensor
                   { shape := [2], dtype := 0, data := [30 + 1 / 1000, 30 + 1 / 1000] } }
    ∧ (get_stats (runState g0 envsTwoModels global_cache)).total_calls = 4
    ∧ (get_stats (runState g0 envsTwoModels global_cache)).cache_hits = 1 := by
  refine ⟨by decide, ?_, by decide, by decide⟩
  simp [outAt, runOuts, run, stepState, stepOut, cached_forward, computeStep, global_cache,
    initCache, envsTwoModels, g0, argsA, argsB, randn_like, tensorAdd, tensorScale, noiseScale,
    Tensor.clone, Tensor.detach]
  norm_num [List.range_succ, Function.comp, g0]

end CacheDit
